import Mathlib

/-!
Shallow embedding of the Hospital-Report-Generator server (`src/server.js`)
and proofs about its request pipeline.

The source file contains two versions of the same server: an earlier variant
whose `callLLMSimplify` asks the model for JSON and parses it (lines 1-165,
called V1 below), and the current variant whose `callLLMSimplify` asks for
plain text and attaches a static keyword list (lines 166-354, called V2).
Both variants share the `/api/upload` extractor and the `/api/simplify`
route shape, which are byte-for-byte identical between the two versions.

Modelling conventions:
- JavaScript strings are Lean `String`s; character-level operations
  (`slice`, `split`, `trim`, `endsWith`, ...) are defined below over
  `String.data` to mirror the JS semantics for the character sets that
  appear in the claims.
- The external OpenAI chat-completion call is an oracle `LLMOutcome`:
  either the promise resolves with an optional message content, or it
  rejects (throws).  An exception that escapes a function is an
  `Except.error`; a normal return is `Except.ok`.
- External binary collaborators (`Buffer.toString('utf8')`, `pdf-parse`,
  `JSON.parse`) are universally quantified function parameters: the server
  code never inspects their output character by character, it only routes
  it, so every theorem holds for every possible behaviour of these
  collaborators.
-/

namespace HospitalReport

/-! ## JavaScript string primitives -/

/-- Whitespace characters removed by JS `String.prototype.trim` (the subset
relevant to the server: space, tab, LF, VT, FF, CR, NBSP). -/
def isJsSpace (c : Char) : Bool :=
  c = ' ' || c = '\t' || c = '\n' || c = '\x0b' || c = '\x0c' || c = '\r' || c = ' '

/-- JS `s.trim()`. -/
def jsTrim (s : String) : String :=
  String.mk (((s.data.dropWhile isJsSpace).reverse.dropWhile isJsSpace).reverse)

/-- JS `s.slice(0, n)` (for ASCII text, where UTF-16 units and characters agree). -/
def jsSlice (s : String) (n : Nat) : String :=
  String.mk (s.data.take n)

/-- JS `s.endsWith(suffix)`. -/
def jsEndsWith (s suffix : String) : Bool :=
  suffix.data.isSuffixOf s.data

/-- JS `s.split(sep)` for a single-character separator, over char lists. -/
def splitOnChar (sep : Char) : List Char → List (List Char)
  | [] => [[]]
  | c :: cs =>
    match splitOnChar sep cs with
    | [] => [[]]
    | p :: ps => if c = sep then [] :: p :: ps else (c :: p) :: ps

/-- JS `s.split(sep)` for a single-character separator. -/
def jsSplit (sep : Char) (s : String) : List String :=
  (splitOnChar sep s.data).map String.mk

/-- JS `Array.prototype.join(sep)`. -/
def jsJoin (sep : String) : List String → String
  | [] => ""
  | [p] => p
  | p :: ps => p ++ sep ++ jsJoin sep ps

/-- JS `hay.includes(needle)`-style substring test over char lists. -/
def listIncludes (needle : List Char) : List Char → Bool
  | [] => needle.isEmpty
  | h :: t => needle.isPrefixOf (h :: t) || listIncludes needle t

/-! ## `encodeURIComponent`

JS `encodeURIComponent` leaves the unreserved characters
`A-Z a-z 0-9 - _ . ! ~ * ' ( )` as-is and percent-encodes every other
character's UTF-8 bytes with uppercase hex digits. -/

def uriUnreserved (c : Char) : Bool :=
  c.isAlphanum || c = '-' || c = '_' || c = '.' || c = '!' || c = '~' ||
    c = '*' || c = '\'' || c = '(' || c = ')'

def hexDigit (n : Nat) : Char :=
  if n < 10 then Char.ofNat ('0'.toNat + n) else Char.ofNat ('A'.toNat + n - 10)

def percentEncodeByte (b : Nat) : List Char :=
  ['%', hexDigit (b / 16), hexDigit (b % 16)]

/-- UTF-8 bytes of a character (as `Nat`s below 256). -/
def utf8Bytes (c : Char) : List Nat :=
  let n := c.toNat
  if n < 0x80 then [n]
  else if n < 0x800 then [0xC0 + n / 64, 0x80 + n % 64]
  else if n < 0x10000 then [0xE0 + n / 4096, 0x80 + (n / 64) % 64, 0x80 + n % 64]
  else [0xF0 + n / 262144, 0x80 + (n / 4096) % 64, 0x80 + (n / 64) % 64, 0x80 + n % 64]

def encodeURIComponent (s : String) : String :=
  String.mk (s.data.flatMap fun c =>
    if uriUnreserved c then [c] else (utf8Bytes c).flatMap percentEncodeByte)

/-! ## Data model -/

/-- One chat message handed to the chat-completion API. -/
structure ChatMessage where
  role : String
  content : String
  deriving Repr, DecidableEq

/-- The structured result produced by `callLLMSimplify` (either variant):
`simplified` text, `visual_keywords`, `short_summary`.  `visual_keywords`
is an `Option` because the V1 JSON path can yield an object without that
field (`undefined` in JS). -/
structure SimplificationResult where
  simplified : String
  visual_keywords : Option (List String)
  short_summary : String
  deriving Repr, DecidableEq

/-- A keyword paired with an image-hint URL (`visual_cards` entries). -/
structure VisualCard where
  keyword : String
  image_hint : String
  deriving Repr, DecidableEq

/-- Behaviour of the external chat-completion call: the promise resolves
(with `resp?.choices?.[0]?.message?.content` being `some` content or
absent), or it rejects — network failure, malformed response, quota or
auth rejection all surface as a rejected promise / thrown error. -/
inductive LLMOutcome where
  | success (content : Option String)
  | failure
  deriving Repr, DecidableEq

/-! ## `callLLMSimplify` — prompt construction (shared shape)

In BOTH variants the JS code builds the `user` prompt string from `text`
FIRST, and only afterwards executes

    const MAX_INPUT_CHARS = 8000;
    if (text.length > MAX_INPUT_CHARS) {
      text = text.slice(0, MAX_INPUT_CHARS) + "\n\n[TRUNCATED]";
    }

reassigning the local `text`, which is never read again: `messages` uses
the already-built `user` string.  The embedding mirrors this order with a
shadowing `let`. -/

def MAX_INPUT_CHARS : Nat := 8000

def TRUNCATION_MARKER : String := "\n\n[TRUNCATED]"

/-- The truncation expression `text.slice(0, MAX_INPUT_CHARS) + "\n\n[TRUNCATED]"`
guarded by `text.length > MAX_INPUT_CHARS`. -/
def truncateInput (text : String) : String :=
  if text.length > MAX_INPUT_CHARS then jsSlice text MAX_INPUT_CHARS ++ TRUNCATION_MARKER
  else text

/-- V2 user prompt (template literal at lines 239-248). -/
def userPromptV2 (text targetLang tone : String) : String :=
  "\nSimplify and explain this medical report for a non-medical person.\nMake it warm, encouraging, and conversational.\n\nReport text:\n\"\"\"" ++
    text ++ "\"\"\"\nTarget language: " ++ targetLang ++ "\nTone: " ++ tone ++
    "\nReturn plain text only with emojis and formatting.\n"

/-- V2 system prompt (abbreviated to its fixed text head; the exact content
is irrelevant to the claims, only that it is a constant not depending on
the report text). -/
def systemPromptV2 : String :=
  "\nYou are a friendly and empathetic health explainer.\nYour goal is to rewrite any diagnostic or medical report into a clear, positive, and easily understandable summary for a layperson.\n"

/-- V1 user prompt (line 55). -/
def userPromptV1 (text targetLang tone : String) : String :=
  "Input report:\n\"\"\"" ++ text ++ "\"\"\"\nTarget language: " ++ targetLang ++
    "\nTone: " ++ tone ++ "\nReturn JSON only (no extra commentary)."

/-- V1 system prompt (constant, lines 48-53; abbreviated head). -/
def systemPromptV1 : String :=
  "You are a helpful medical-language simplifier. Convert clinical medical report text into clear, empathetic, patient-friendly language."

/-- The `messages` array built by V2 `callLLMSimplify`: `user` is computed
from the original `text`; the truncation then rebinds `text` without
`user` ever being rebuilt (faithful to the source order). -/
def messagesV2 (text targetLang tone : String) : List ChatMessage :=
  let user := userPromptV2 text targetLang tone
  let text := truncateInput text
  let _ := text
  [⟨"system", systemPromptV2⟩, ⟨"user", user⟩]

/-- The `messages` array built by V1 `callLLMSimplify` (same order: prompt
first, truncation second). -/
def messagesV1 (text targetLang tone : String) : List ChatMessage :=
  let user := userPromptV1 text targetLang tone
  let text := truncateInput text
  let _ := text
  [⟨"system", systemPromptV1⟩, ⟨"user", user⟩]

/-- The content of the `user` message in a message list (the text actually
embedded in the prompt passed to the text-generation service). -/
def userContent (msgs : List ChatMessage) : Option String :=
  (msgs.filter (fun m => m.role = "user")).head?.map ChatMessage.content

/-! ## `callLLMSimplify` — the two variants -/

/-- The fixed degraded result of V2's catch block. -/
def degradedResult : SimplificationResult :=
  { simplified := "Unable to simplify at the moment. Please try again later."
    visual_keywords := some []
    short_summary := "" }

/-- `raw.split('\n').slice(0, 3).join(' ')`. -/
def shortSummaryOf (raw : String) : String :=
  jsJoin " " ((jsSplit '\n' raw).take 3)

/-- V2 `callLLMSimplify` (lines 212-284).  The entire body after prompt
construction sits in `try { ... } catch (err) { return degraded }`, so a
rejected API call is caught and mapped to the degraded result; on success
`raw = resp?.choices?.[0]?.message?.content?.trim() || ''` and the result
carries the static keyword list. -/
def callLLMSimplifyV2 (outcome : LLMOutcome) (text targetLang tone : String) :
    Except Unit SimplificationResult :=
  let _ := messagesV2 text targetLang tone
  match outcome with
  | .failure => .ok degradedResult
  | .success content =>
    let raw := match content with
      | none => ""
      | some s => jsTrim s
    .ok { simplified := raw
          short_summary := shortSummaryOf raw
          visual_keywords := some ["healthy", "blood", "heart", "fitness"] }

/-- V1 `callLLMSimplify` (lines 46-97).  The `await openai.chat.completions.create`
call is NOT inside any try/catch, so a rejected promise escapes the
function (`Except.error`).  Only the JSON parsing of a successful reply is
guarded: `jsonParse` abstracts `JSON.parse` plus the regex fallback
(`raw.match(/\{[\s\S]*\}$/)` re-parsed), returning `some` structured
result when either succeeds; when both fail, V1 wraps the raw text. -/
def callLLMSimplifyV1 (jsonParse : String → Option SimplificationResult)
    (outcome : LLMOutcome) (text targetLang tone : String) :
    Except Unit SimplificationResult :=
  let _ := messagesV1 text targetLang tone
  match outcome with
  | .failure => .error ()
  | .success content =>
    let raw := content.getD ""
    match jsonParse raw with
    | some parsed => .ok parsed
    | none =>
      .ok { simplified := raw
            visual_keywords := some []
            short_summary := shortSummaryOf raw }

/-! ## Response composer (`visualFallbacks`, lines 325-333 / 136-145)

    const visualFallbacks = (result.visual_keywords && result.visual_keywords.length)
      ? result.visual_keywords.slice(0,4).map(k => ({ keyword: k,
          image_hint: `https://source.unsplash.com/featured/?${encodeURIComponent(k)}` }))
      : [ { keyword: 'doctor-patient', image_hint: 'https://source.unsplash.com/featured/?doctor,patient' },
          { keyword: 'heart', image_hint: 'https://source.unsplash.com/featured/?heart' } ];

A missing field (`undefined`) and an empty array are both falsy, selecting
the default cards.  This is a pure expression: no I/O, no await, no throw. -/

def IMAGE_HINT_BASE : String := "https://source.unsplash.com/featured/?"

def mkCard (k : String) : VisualCard :=
  { keyword := k, image_hint := IMAGE_HINT_BASE ++ encodeURIComponent k }

def defaultCards : List VisualCard :=
  [ { keyword := "doctor-patient",
      image_hint := "https://source.unsplash.com/featured/?doctor,patient" },
    { keyword := "heart",
      image_hint := "https://source.unsplash.com/featured/?heart" } ]

def visualFallbacks (kws : Option (List String)) : List VisualCard :=
  match kws with
  | some ks => if ks.length ≠ 0 then (ks.take 4).map mkCard else defaultCards
  | none => defaultCards

/-- Well-formedness of a URL for this development: it starts with the
`https://` scheme and every character belongs to the RFC 3986 URI
character set (unreserved, reserved, or `%`). -/
def urlAllowedChar (c : Char) : Bool :=
  c.isAlphanum || c = '-' || c = '.' || c = '_' || c = '~' || c = ':' || c = '/' ||
    c = '?' || c = '#' || c = '[' || c = ']' || c = '@' || c = '!' || c = '$' ||
    c = '&' || c = '\'' || c = '(' || c = ')' || c = '*' || c = '+' || c = ',' ||
    c = ';' || c = '=' || c = '%'

def isWellFormedUrl (s : String) : Bool :=
  "https://".data.isPrefixOf s.data && s.data.all urlAllowedChar

/-! ## `/api/upload` extractor (lines 288-307 = 100-119) -/

/-- One uploaded file as multer presents it: original filename, declared
media type, raw bytes (`Nat`s below 256 in practice; the extractor never
inspects them). -/
structure UploadedFile where
  originalname : String
  mimetype : String
  buffer : List Nat
  deriving Repr, DecidableEq

inductive UploadResponse where
  | ok (text : String)
  | badRequest (error : String)
  | serverError (error : String)
  deriving Repr, DecidableEq

/-- `data.text.replace(/\r\n/g, '\n')`: CRLF → LF. -/
def replaceCrlf : List Char → List Char
  | [] => []
  | '\r' :: '\n' :: rest => '\n' :: replaceCrlf rest
  | c :: rest => c :: replaceCrlf rest

/-- The `pdf-parse` result: the promise rejects (`.error`), or resolves
with `data.text` (`none` models a falsy `data`/`data.text`). -/
abbrev PdfParser := List Nat → Except Unit (Option String)

/-- `Buffer.prototype.toString('utf8')`, an external decoder. -/
abbrev Utf8Decoder := List Nat → String

/-- The `/api/upload` handler body.  Returns the HTTP response paired with
a flag recording whether the `pdf` parser was invoked on the bytes. -/
def uploadEndpoint (decode : Utf8Decoder) (pdfParse : PdfParser)
    (file : Option UploadedFile) : UploadResponse × Bool :=
  match file with
  | none => (.badRequest "No file uploaded", false)
  | some f =>
    if f.mimetype = "text/plain" || jsEndsWith f.originalname ".txt" then
      (.ok (decode f.buffer), false)
    else if f.mimetype = "application/pdf" || jsEndsWith f.originalname ".pdf" then
      match pdfParse f.buffer with
      | .ok d =>
        let text := match d with
          | some t => if t.length ≠ 0 then String.mk (replaceCrlf t.data) else ""
          | none => ""
        (.ok text, true)
      | .error _ => (.serverError "Failed to parse uploaded file", true)
    else (.badRequest "Unsupported file type. Use .txt or .pdf", false)

/-! ## `/api/simplify` route (lines 311-344, around V2 `callLLMSimplify`) -/

structure SimplifyPayload where
  simplified : String
  short_summary : String
  visual_cards : List VisualCard
  deriving Repr, DecidableEq

inductive SimplifyResponse where
  | ok (payload : SimplifyPayload)
  | badRequest (error : String)
  | serverError (error : String)
  deriving Repr, DecidableEq

/-- The `/api/simplify` handler body around the V2 simplifier.  `report` is
`none` when the field is absent from the JSON body.  Returns the HTTP
response paired with a flag recording whether `callLLMSimplify` (and hence
the external text-generation service) was invoked. -/
def simplifyEndpoint (outcome : LLMOutcome) (report : Option String)
    (targetLang tone : String) : SimplifyResponse × Bool :=
  match report with
  | none => (.badRequest "report text required", false)
  | some r =>
    if r = "" || (jsTrim r).length = 0 then
      (.badRequest "report text required", false)
    else
      let clean := jsTrim r
      match callLLMSimplifyV2 outcome clean targetLang tone with
      | .ok result =>
        (.ok { simplified := result.simplified
               short_summary := result.short_summary
               visual_cards := visualFallbacks result.visual_keywords }, true)
      | .error _ => (.serverError "Failed to simplify. Check server logs.", true)

/-! ## Shared helper lemmas -/

theorem isPrefixOf_self (l : List Char) : l.isPrefixOf l = true := by
  induction l <;> simp [List.isPrefixOf, *]

theorem listIncludes_append_self (needle pre : List Char) :
    listIncludes needle (pre ++ needle) = true := by
  induction pre with
  | nil =>
    cases needle with
    | nil => rfl
    | cons h t => simp [listIncludes, isPrefixOf_self]
  | cons p ps ih =>
    simp only [List.cons_append, listIncludes, Bool.or_eq_true]
    exact Or.inr ih

theorem splitOnChar_ne_nil (sep : Char) (l : List Char) : splitOnChar sep l ≠ [] := by
  cases l with
  | nil => simp [splitOnChar]
  | cons c cs =>
    simp only [splitOnChar]
    cases h : splitOnChar sep cs with
    | nil => simp
    | cons p ps =>
      by_cases hc : c = sep <;> simp [hc]

theorem splitOnChar_not_mem (sep : Char) (l : List Char) :
    ∀ p ∈ splitOnChar sep l, sep ∉ p := by
  induction l with
  | nil =>
    intro p hp
    simp [splitOnChar] at hp
    simp [hp]
  | cons c cs ih =>
    intro p hp
    simp only [splitOnChar] at hp
    cases h : splitOnChar sep cs with
    | nil => exact absurd h (splitOnChar_ne_nil sep cs)
    | cons q qs =>
      rw [h] at hp
      by_cases hc : c = sep
      · simp only [hc, if_pos rfl] at hp
        rcases List.mem_cons.mp hp with h1 | h1
        · simp [h1]
        · exact ih p (h ▸ h1)
      · simp only [if_neg hc] at hp
        rcases List.mem_cons.mp hp with h1 | h1
        · subst h1
          intro hmem
          rcases List.mem_cons.mp hmem with h2 | h2
          · exact hc h2.symm
          · exact ih q (h ▸ List.mem_cons_self q qs) h2
        · exact ih p (h ▸ List.mem_cons.mpr (Or.inr h1))

theorem jsJoin_not_mem (c : Char) (sep : String) (parts : List String)
    (hsep : c ∉ sep.data) (hparts : ∀ p ∈ parts, c ∉ p.data) :
    c ∉ (jsJoin sep parts).data := by
  induction parts with
  | nil => simp [jsJoin]
  | cons p ps ih =>
    cases ps with
    | nil =>
      simpa [jsJoin] using hparts p (List.mem_cons_self p [])
    | cons q qs =>
      simp only [jsJoin, String.data_append, List.mem_append]
      push_neg
      refine ⟨⟨hparts p (List.mem_cons_self p _), hsep⟩, ?_⟩
      exact ih fun r hr => hparts r (List.mem_cons.mpr (Or.inr hr))

theorem shortSummaryOf_no_newline (raw : String) :
    '\n' ∉ (shortSummaryOf raw).data := by
  apply jsJoin_not_mem
  · simp
  · intro p hp
    have hp' := List.mem_of_mem_take hp
    simp only [jsSplit, List.mem_map] at hp'
    obtain ⟨l, hl, rfl⟩ := hp'
    exact splitOnChar_not_mem '\n' raw.data l hl

theorem uriUnreserved_allowed (c : Char) (h : uriUnreserved c = true) :
    urlAllowedChar c = true := by
  simp only [uriUnreserved, Bool.or_eq_true, decide_eq_true_eq] at h
  simp only [urlAllowedChar, Bool.or_eq_true, decide_eq_true_eq]
  tauto

theorem hexDigit_allowed : ∀ n < 16, urlAllowedChar (hexDigit n) = true := by
  decide

theorem utf8Bytes_lt (c : Char) : ∀ b ∈ utf8Bytes c, b < 256 := by
  have hval : c.toNat < 1114112 := by
    have h := c.valid
    rcases h with h | ⟨_, h⟩ <;> simp [Char.toNat] <;> omega
  intro b hb
  simp only [utf8Bytes] at hb
  split at hb
  · simp at hb; omega
  · split at hb
    · simp at hb
      rcases hb with rfl | rfl <;> omega
    · split at hb
      · simp at hb
        rcases hb with rfl | rfl | rfl <;> omega
      · simp at hb
        rcases hb with rfl | rfl | rfl | rfl <;> omega

theorem percentEncodeByte_allowed (b : Nat) (hb : b < 256) :
    ∀ x ∈ percentEncodeByte b, urlAllowedChar x = true := by
  intro x hx
  simp only [percentEncodeByte, List.mem_cons, List.not_mem_nil, or_false] at hx
  rcases hx with rfl | rfl | rfl
  · decide
  · exact hexDigit_allowed (b / 16) (by omega)
  · exact hexDigit_allowed (b % 16) (by omega)

theorem encodeURIComponent_allowed (s : String) :
    ∀ x ∈ (encodeURIComponent s).data, urlAllowedChar x = true := by
  intro x hx
  simp only [encodeURIComponent, List.mem_flatMap] at hx
  obtain ⟨c, _, hc⟩ := hx
  by_cases h : uriUnreserved c = true
  · rw [if_pos h] at hc
    simp at hc
    exact hc ▸ uriUnreserved_allowed c h
  · rw [if_neg h] at hc
    simp only [List.mem_flatMap] at hc
    obtain ⟨b, hb, hcb⟩ := hc
    exact percentEncodeByte_allowed b (utf8Bytes_lt c b hb) x hcb

theorem mkCard_wellFormed (k : String) : isWellFormedUrl (mkCard k).image_hint = true := by
  simp only [isWellFormedUrl, mkCard, String.data_append, Bool.and_eq_true]
  constructor
  · rw [List.isPrefixOf_iff_prefix]
    have h1 : "https://".data.isPrefixOf IMAGE_HINT_BASE.data = true := by decide
    exact List.IsPrefix.trans (List.isPrefixOf_iff_prefix.mp h1) (List.prefix_append _ _)
  · rw [List.all_append, Bool.and_eq_true]
    exact ⟨by decide, List.all_eq_true.mpr (encodeURIComponent_allowed k)⟩

/-! ## Claim theorems -/

/-- C5: for every simplify request whose `report` field is missing, empty,
or whitespace-only, the endpoint returns the 400 validation error
`report text required` and the external text-generation service is never
invoked (invocation flag is `false`), regardless of how the service would
have behaved. -/
theorem simplify_rejects_blank_report (outcome : LLMOutcome) (report : Option String)
    (targetLang tone : String) (h : ∀ s, report = some s → jsTrim s = "") :
    simplifyEndpoint outcome report targetLang tone =
      (.badRequest "report text required", false) := by
  cases report with
  | none => rfl
  | some r =>
    have hr : jsTrim r = "" := h r rfl
    simp [simplifyEndpoint, hr]

/-- Witness for C5: the concrete whitespace-only report consisting of a
space, a tab and a newline is rejected with 400 and no service call. -/
theorem simplify_rejects_blank_report_witness :
    simplifyEndpoint .failure (some " \t\n") "en" "friendly" =
      (.badRequest "report text required", false) :=
  simplify_rejects_blank_report .failure (some " \t\n") "en" "friendly"
    (fun s hs => by cases hs; rfl)

/-- C3: whenever the external text-generation call fails (rejected
promise), the simplify endpoint still answers 200 with the fixed non-empty
"try again later" message, an empty `short_summary`, and exactly the two
fixed default visual cards (the degraded result's keyword list is empty). -/
theorem simplify_degrades_on_llm_failure (r targetLang tone : String)
    (h : jsTrim r ≠ "") :
    simplifyEndpoint .failure (some r) targetLang tone =
      (.ok { simplified := "Unable to simplify at the moment. Please try again later."
             short_summary := ""
             visual_cards := defaultCards }, true) := by
  have hr : r ≠ "" := fun hrr => h (by rw [hrr]; rfl)
  have hlen : (jsTrim r).length ≠ 0 := fun h0 => by
    have : jsTrim r = "" := by
      cases heq : jsTrim r with
      | mk data => rw [heq] at h0; cases data with
        | nil => rfl
        | cons a as => simp [String.length] at h0
    exact h this
  simp [simplifyEndpoint, hr, hlen, callLLMSimplifyV2, degradedResult, visualFallbacks]

/-- Witness for C3: the concrete report "Hemoglobin low" with a failing
service call yields the degraded 200 payload with the two default cards. -/
theorem simplify_degrades_on_llm_failure_witness :
    simplifyEndpoint .failure (some "Hemoglobin low") "en" "friendly" =
      (.ok { simplified := "Unable to simplify at the moment. Please try again later."
             short_summary := ""
             visual_cards := defaultCards }, true) :=
  simplify_degrades_on_llm_failure "Hemoglobin low" "en" "friendly" (by decide)

/-- C7: for every uploaded file whose declared media type is `text/plain`
or whose filename ends in `.txt`, the upload endpoint returns exactly the
UTF-8 decoding of the uploaded bytes — whatever the external decoder
produces is passed through with no further transformation — and the pdf
parser is not invoked. -/
theorem upload_plaintext_verbatim (decode : Utf8Decoder) (pdfParse : PdfParser)
    (f : UploadedFile)
    (h : f.mimetype = "text/plain" ∨ jsEndsWith f.originalname ".txt" = true) :
    uploadEndpoint decode pdfParse (some f) = (.ok (decode f.buffer), false) := by
  rcases h with h | h <;> simp [uploadEndpoint, h]

/-- Witness for C7: a concrete `text/plain` upload is answered with the
decoder's exact output. -/
theorem upload_plaintext_verbatim_witness :
    uploadEndpoint (fun _ => "  raw \r\n text  ") (fun _ => .error ())
      (some { originalname := "scan.dat", mimetype := "text/plain", buffer := [82, 101] }) =
      (.ok "  raw \r\n text  ", false) :=
  upload_plaintext_verbatim (fun _ => "  raw \r\n text  ") (fun _ => .error ())
    { originalname := "scan.dat", mimetype := "text/plain", buffer := [82, 101] }
    (Or.inl rfl)

/-- C9: the extractor's dispatch tests the plain-text condition first and
each condition is a disjunction of declared type and filename extension:
a declared `text/plain` file is decoded as text whatever its filename
(including one ending in `.pdf`), and a file whose name ends in `.txt` is
decoded as text whatever its declared type (including `application/json`). -/
theorem upload_dispatch_order (decode : Utf8Decoder) (pdfParse : PdfParser)
    (name mt : String) (bytes : List Nat) :
    (mt = "text/plain" →
      uploadEndpoint decode pdfParse (some ⟨name, mt, bytes⟩) = (.ok (decode bytes), false)) ∧
    (jsEndsWith name ".txt" = true →
      uploadEndpoint decode pdfParse (some ⟨name, mt, bytes⟩) = (.ok (decode bytes), false)) := by
  constructor
  · intro h
    simp [uploadEndpoint, h]
  · intro h
    simp [uploadEndpoint, h]

/-- Witness for C9: a `text/plain` file named `report.pdf` is decoded as
text, and an `application/json` file named `report.txt` is decoded as
text too. -/
theorem upload_dispatch_order_witness :
    uploadEndpoint (fun _ => "T") (fun _ => .error ())
      (some ⟨"report.pdf", "text/plain", [1]⟩) = (.ok "T", false) ∧
    uploadEndpoint (fun _ => "T") (fun _ => .error ())
      (some ⟨"report.txt", "application/json", [1]⟩) = (.ok "T", false) :=
  ⟨(upload_dispatch_order (fun _ => "T") (fun _ => .error ()) "report.pdf" "text/plain" [1]).1 rfl,
   (upload_dispatch_order (fun _ => "T") (fun _ => .error ()) "report.txt" "application/json" [1]).2
     (by decide)⟩

/-- C8 counterexample: the claim says ANY file whose declared media type is
neither plain text nor PDF — in particular `application/json` — is
rejected with 400.  But a file with media type `application/json` named
`data.txt` matches the `.txt` extension disjunct and is decoded as plain
text: the endpoint answers 200 with the decoder's output, not the 400
unsupported-file-type error. -/
theorem upload_json_txt_counterexample :
    uploadEndpoint (fun _ => "decoded") (fun _ => .error ())
      (some { originalname := "data.txt", mimetype := "application/json", buffer := [] }) =
      (.ok "decoded", false) ∧
    UploadResponse.ok "decoded" ≠
      UploadResponse.badRequest "Unsupported file type. Use .txt or .pdf" :=
  ⟨rfl, by decide⟩

/-- C8 amended: for every uploaded file whose declared media type is
neither `text/plain` nor `application/pdf` AND whose filename ends in
neither `.txt` nor `.pdf`, the endpoint fails with the 400
unsupported-file-type error and never invokes the pdf parser. -/
theorem upload_rejects_unsupported (decode : Utf8Decoder) (pdfParse : PdfParser)
    (f : UploadedFile)
    (h1 : f.mimetype ≠ "text/plain") (h2 : jsEndsWith f.originalname ".txt" = false)
    (h3 : f.mimetype ≠ "application/pdf") (h4 : jsEndsWith f.originalname ".pdf" = false) :
    uploadEndpoint decode pdfParse (some f) =
      (.badRequest "Unsupported file type. Use .txt or .pdf", false) := by
  simp [uploadEndpoint, h1, h2, h3, h4]

/-- Witness for amended C8: a concrete `application/json` upload named
`data.json` is rejected with the 400 unsupported-file-type error. -/
theorem upload_rejects_unsupported_witness :
    uploadEndpoint (fun _ => "decoded") (fun _ => .error ())
      (some { originalname := "data.json", mimetype := "application/json", buffer := [] }) =
      (.badRequest "Unsupported file type. Use .txt or .pdf", false) :=
  upload_rejects_unsupported (fun _ => "decoded") (fun _ => .error ())
    { originalname := "data.json", mimetype := "application/json", buffer := [] }
    (by decide) (by decide) (by decide) (by decide)

/-- C6: the response composer is a pure total Lean function of the
`SimplificationResult`'s keyword list (it performs no I/O and cannot
fail).  When the list is absent or empty it yields exactly the two fixed
default cards; when it is non-empty it maps the first at most four
keywords to cards whose `image_hint` is the templated image-search URL
parameterized by the URL-encoded keyword. -/
theorem composer_total_spec (kws : Option (List String)) :
    ((kws = none ∨ kws = some []) → visualFallbacks kws = defaultCards) ∧
    (∀ l, kws = some l → l ≠ [] →
      visualFallbacks kws = (l.take 4).map
        (fun k => { keyword := k
                    image_hint := IMAGE_HINT_BASE ++ encodeURIComponent k : VisualCard })) := by
  constructor
  · rintro (rfl | rfl) <;> rfl
  · rintro l rfl hl
    have : l.length ≠ 0 := fun h0 => hl (List.length_eq_zero.mp h0)
    simp only [visualFallbacks, this, ne_eq, not_false_iff, if_pos]
    rfl

/-- Witness for C6: on the concrete two-keyword list the composer yields
the two templated cards, and on the empty list it yields the defaults. -/
theorem composer_total_spec_witness :
    visualFallbacks (some ["healthy", "blood"]) =
      (["healthy", "blood"].take 4).map
        (fun k => { keyword := k
                    image_hint := IMAGE_HINT_BASE ++ encodeURIComponent k : VisualCard }) ∧
    visualFallbacks (some []) = defaultCards :=
  ⟨(composer_total_spec (some ["healthy", "blood"])).2 ["healthy", "blood"] rfl (by decide),
   (composer_total_spec (some [])).1 (Or.inr rfl)⟩

/-- C2 counterexample: in the V1 (JSON) variant the
`openai.chat.completions.create` call sits outside every try/catch, so
when the external call rejects, `callLLMSimplify` does NOT return a
`SimplificationResult` — the exception propagates to its caller
(modelled as `Except.error`). -/
theorem callLLMSimplifyV1_throws :
    callLLMSimplifyV1 (fun _ => none) .failure "some report" "en" "friendly" =
      .error () := rfl

/-- C2 amended: the V2 (plain-text) variant returns a
`SimplificationResult` for every behaviour of the external call — its
whole body is wrapped in try/catch; the V1 (JSON) variant returns a
result for every successful call (whatever the JSON parser does), but a
rejected external call propagates out of it as an exception, which the
route handler then converts to a 500. -/
theorem callLLMSimplify_exception_behaviour :
    (∀ (outcome : LLMOutcome) (text targetLang tone : String),
      ∃ res, callLLMSimplifyV2 outcome text targetLang tone = Except.ok res) ∧
    (∀ (jsonParse : String → Option SimplificationResult) (content : Option String)
        (text targetLang tone : String),
      ∃ res, callLLMSimplifyV1 jsonParse (.success content) text targetLang tone =
        Except.ok res) ∧
    (∀ (jsonParse : String → Option SimplificationResult) (text targetLang tone : String),
      callLLMSimplifyV1 jsonParse .failure text targetLang tone = Except.error ()) := by
  refine ⟨fun outcome text targetLang tone => ?_,
          fun jsonParse content text targetLang tone => ?_,
          fun jsonParse text targetLang tone => rfl⟩
  · cases outcome <;> exact ⟨_, rfl⟩
  · simp only [callLLMSimplifyV1]
    cases jsonParse (content.getD "") <;> exact ⟨_, rfl⟩

/-- C4 counterexample: the composer output for an empty keyword list (the
degraded path) starts with the fixed default card whose keyword is
`doctor-patient` but whose `image_hint` query is `doctor,patient` — the
hint does NOT contain the URL-encoding of that card's keyword (which is
`doctor-patient` itself, a hyphen being unreserved). -/
theorem visual_cards_encoding_counterexample :
    (visualFallbacks (some [])).head? =
      some { keyword := "doctor-patient"
             image_hint := "https://source.unsplash.com/featured/?doctor,patient" } ∧
    listIncludes (encodeURIComponent "doctor-patient").data
      "https://source.unsplash.com/featured/?doctor,patient".data = false :=
  ⟨rfl, by decide⟩

/-- C4 amended: for every keyword list, `visual_cards` has between 1 and 4
entries and every card's `image_hint` is a well-formed URL; moreover on
the non-empty keyword path each card's hint contains the URL-encoded
keyword.  (For the two fixed default cards the well-formed-URL part still
holds, but the first default card's hint contains `doctor,patient` rather
than the URL-encoding of its keyword `doctor-patient`.) -/
theorem visual_cards_invariant (kws : Option (List String)) :
    1 ≤ (visualFallbacks kws).length ∧ (visualFallbacks kws).length ≤ 4 ∧
    (∀ card ∈ visualFallbacks kws, isWellFormedUrl card.image_hint = true) ∧
    (∀ l, kws = some l → l ≠ [] → ∀ card ∈ visualFallbacks kws,
      listIncludes (encodeURIComponent card.keyword).data card.image_hint.data = true) := by
  have hdef : ∀ card ∈ defaultCards, isWellFormedUrl card.image_hint = true := by decide
  cases kws with
  | none =>
    refine ⟨by decide, by decide, hdef, ?_⟩
    intro l hl
    exact absurd hl (by simp)
  | some l =>
    by_cases hl : l = []
    · subst hl
      refine ⟨by decide, by decide, hdef, ?_⟩
      intro l' hl' hne
      exact absurd (Option.some.inj hl').symm hne
    · have hlen : l.length ≠ 0 := fun h0 => hl (List.length_eq_zero.mp h0)
      have hcards : visualFallbacks (some l) = (l.take 4).map mkCard := by
        simp [visualFallbacks, hlen]
      rw [hcards]
      refine ⟨?_, ?_, ?_, ?_⟩
      · rw [List.length_map, List.length_take]
        omega
      · rw [List.length_map, List.length_take]
        omega
      · intro card hc
        obtain ⟨k, _, rfl⟩ := List.mem_map.mp hc
        exact mkCard_wellFormed k
      · intro l' _ _ card hc
        obtain ⟨k, _, rfl⟩ := List.mem_map.mp hc
        show listIncludes (encodeURIComponent k).data
          (IMAGE_HINT_BASE ++ encodeURIComponent k).data = true
        rw [String.data_append]
        exact listIncludes_append_self _ _

/-- Witness for amended C4: on the concrete keyword list `["healthy"]` the
composer yields at least one card, and the card for `healthy` has an
image hint containing its URL-encoded keyword. -/
theorem visual_cards_invariant_witness :
    1 ≤ (visualFallbacks (some ["healthy"])).length ∧
    listIncludes (encodeURIComponent "healthy").data (mkCard "healthy").image_hint.data =
      true :=
  ⟨(visual_cards_invariant (some ["healthy"])).1,
   (visual_cards_invariant (some ["healthy"])).2.2.2 ["healthy"] rfl (by decide)
     (mkCard "healthy") (by decide)⟩

/-! ## C1: prompt truncation

In both variants the `user` prompt string is interpolated from `text`
BEFORE the `if (text.length > MAX_INPUT_CHARS)` truncation executes; the
truncated value is written to the local `text` and never read again, so
the prompt sent to the service always embeds the original, untruncated
report. -/

theorem userPromptV2_ne_of_length (s₁ s₂ targetLang tone : String)
    (h : s₁.length ≠ s₂.length) :
    userPromptV2 s₁ targetLang tone ≠ userPromptV2 s₂ targetLang tone := by
  intro heq
  apply h
  have h1 := congrArg String.length heq
  simp only [userPromptV2, String.length_append] at h1
  omega

theorem userPromptV1_ne_of_length (s₁ s₂ targetLang tone : String)
    (h : s₁.length ≠ s₂.length) :
    userPromptV1 s₁ targetLang tone ≠ userPromptV1 s₂ targetLang tone := by
  intro heq
  apply h
  have h1 := congrArg String.length heq
  simp only [userPromptV1, String.length_append] at h1
  omega

theorem longReport_length : (String.mk (List.replicate 8001 'a')).length = 8001 := by
  rw [show (String.mk (List.replicate 8001 'a')).length =
    (List.replicate 8001 'a').length from rfl, List.length_replicate]

theorem truncateInput_longReport_length :
    (truncateInput (String.mk (List.replicate 8001 'a'))).length = 8013 := by
  rw [truncateInput, if_pos (by rw [longReport_length]; decide)]
  rw [String.length_append]
  rw [show (jsSlice (String.mk (List.replicate 8001 'a')) MAX_INPUT_CHARS).length =
    ((List.replicate 8001 'a').take MAX_INPUT_CHARS).length from rfl]
  rw [List.length_take, List.length_replicate]
  rfl

/-- C1 (code bug): on the concrete report of 8001 characters — strictly
longer than the 8000-character threshold — the `user` message actually
passed to the text-generation service embeds the ORIGINAL report
(`userPromptV2 t` / `userPromptV1 t`), which differs from the prompt that
would have been built from the truncated report (8000-character prefix
plus the `[TRUNCATED]` marker).  The truncation statement in the source
runs only after the prompt string is interpolated, so it has no effect. -/
theorem prompt_ignores_truncation :
    (String.mk (List.replicate 8001 'a')).length > MAX_INPUT_CHARS ∧
    userContent (messagesV2 (String.mk (List.replicate 8001 'a')) "en" "friendly") =
      some (userPromptV2 (String.mk (List.replicate 8001 'a')) "en" "friendly") ∧
    userPromptV2 (String.mk (List.replicate 8001 'a')) "en" "friendly" ≠
      userPromptV2 (truncateInput (String.mk (List.replicate 8001 'a'))) "en" "friendly" ∧
    userContent (messagesV1 (String.mk (List.replicate 8001 'a')) "en" "friendly") =
      some (userPromptV1 (String.mk (List.replicate 8001 'a')) "en" "friendly") ∧
    userPromptV1 (String.mk (List.replicate 8001 'a')) "en" "friendly" ≠
      userPromptV1 (truncateInput (String.mk (List.replicate 8001 'a'))) "en" "friendly" := by
  refine ⟨by rw [longReport_length]; decide, rfl, ?_, rfl, ?_⟩
  · exact userPromptV2_ne_of_length _ _ _ _
      (by rw [longReport_length, truncateInput_longReport_length]; decide)
  · exact userPromptV1_ne_of_length _ _ _ _
      (by rw [longReport_length, truncateInput_longReport_length]; decide)

/-- C1, the part of the claim that does hold: for reports of length at
most 8000 the truncation expression leaves the text unchanged, so the
embedded text and the (unperformed) truncation agree. -/
theorem truncateInput_short_id (text : String) (h : text.length ≤ MAX_INPUT_CHARS) :
    truncateInput text = text := by
  rw [truncateInput, if_neg (by omega)]

/-- Witness for the short-report part of C1: an 11-character report is
left unchanged by the truncation expression. -/
theorem truncateInput_short_id_witness : truncateInput "short input" = "short input" :=
  truncateInput_short_id "short input" (by decide)

/-- C10: in the plain-text variant, every successful text-generation call
produces a result whose keyword list is exactly
`["healthy", "blood", "heart", "fitness"]`; consequently a successful
simplify request is answered with exactly the four cards for those
keywords (never the two default cards, which remain reachable only on the
degraded path), and `short_summary` — the first three reply lines joined
by single spaces — contains no newline character. -/
theorem plain_variant_static_keywords (content : Option String) (r targetLang tone : String)
    (h : jsTrim r ≠ "") :
    (∃ res, callLLMSimplifyV2 (.success content) (jsTrim r) targetLang tone =
        Except.ok res ∧
      res.visual_keywords = some ["healthy", "blood", "heart", "fitness"] ∧
      '\n' ∉ res.short_summary.data) ∧
    (∃ p, simplifyEndpoint (.success content) (some r) targetLang tone = (.ok p, true) ∧
      p.visual_cards = [mkCard "healthy", mkCard "blood", mkCard "heart", mkCard "fitness"] ∧
      p.visual_cards.length = 4 ∧
      p.visual_cards ≠ defaultCards ∧
      '\n' ∉ p.short_summary.data) := by
  have hr : r ≠ "" := fun hrr => h (by rw [hrr]; rfl)
  have hlen : (jsTrim r).length ≠ 0 := by
    intro h0
    apply h
    cases heq : jsTrim r with
    | mk data =>
      rw [heq] at h0
      cases data with
      | nil => rfl
      | cons a as => simp [String.length] at h0
  constructor
  · exact ⟨_, rfl, rfl, shortSummaryOf_no_newline _⟩
  · have heq : simplifyEndpoint (.success content) (some r) targetLang tone =
        (.ok { simplified := (match content with | none => "" | some s => jsTrim s)
               short_summary :=
                 shortSummaryOf (match content with | none => "" | some s => jsTrim s)
               visual_cards :=
                 [mkCard "healthy", mkCard "blood", mkCard "heart", mkCard "fitness"] },
         true) := by
      show (if r = "" || (jsTrim r).length = 0 then
              ((.badRequest "report text required" : SimplifyResponse), false)
            else _) = _
      rw [if_neg (by simp [hr, hlen])]
      rfl
    exact ⟨_, heq, rfl, rfl,
      (show [mkCard "healthy", mkCard "blood", mkCard "heart", mkCard "fitness"] ≠
          defaultCards by decide),
      shortSummaryOf_no_newline _⟩

/-- Witness for C10: the concrete reply with four lines yields the four
static-keyword cards and a newline-free summary. -/
theorem plain_variant_static_keywords_witness :
    ∃ p, simplifyEndpoint (.success (some "Line one\nLine two\nLine three\nLine four"))
        (some "Hemoglobin 10.2") "en" "friendly" = (.ok p, true) ∧
      p.visual_cards = [mkCard "healthy", mkCard "blood", mkCard "heart", mkCard "fitness"] ∧
      p.visual_cards.length = 4 ∧
      p.visual_cards ≠ defaultCards ∧
      '\n' ∉ p.short_summary.data :=
  (plain_variant_static_keywords (some "Line one\nLine two\nLine three\nLine four")
    "Hemoglobin 10.2" "en" "friendly" (by decide)).2

end HospitalReport
